import Mathlib

/-!
Shallow embedding of the leave-request (outing) workflow of the hostel
backend: the leave controller (createLeaveRequest, getAllLeaveRequests,
parentApproveOrReject, updateLeaveStatus, cancelMyLeaveRequest) together
with the Mongoose lookups it performs.  Statuses and roles are kept as
strings, exactly as the JavaScript compares them; dates are integers
(milliseconds); identifiers are naturals.  Each controller action is a
function from the request and the database to an HTTP-style result
(status code + message on error, the persisted leave on success) and the
database after the call.
-/

namespace HostelLeave

/-- One entry of `statusHistory`: `{status, role, updatedBy?, reason?, timestamp}`. -/
structure HistoryEntry where
  status : String
  role : String
  updatedBy : Option Nat
  reason : Option String
  timestamp : Int
deriving Repr, DecidableEq

/-- The Leave aggregate as stored (fields used by the controller). -/
structure Leave where
  id : Nat
  institutionId : Nat
  studentId : Nat
  reason : String
  type : String
  outDate : Int
  inDate : Int
  outTime : Option String
  inTime : Option String
  status : String
  parentApprovalStatus : String
  parentApprovedBy : Option Nat
  parentApprovedAt : Option Int
  parentRejectionReason : Option String
  approvedBy : Option Nat
  approvedAt : Option Int
  rejectionReason : Option String
  statusHistory : List HistoryEntry
  createdAt : Int
deriving Repr, DecidableEq

/-- Student profile (fields the controller reads). -/
structure Student where
  id : Nat
  userId : Nat
  institutionId : Nat
deriving Repr, DecidableEq

/-- Parent profile: links a parent user to exactly one student. -/
structure Parent where
  id : Nat
  userId : Nat
  institutionId : Nat
  studentId : Nat
deriving Repr, DecidableEq

/-- The authenticated caller (`req.user`). -/
structure User where
  id : Nat
  institutionId : Nat
deriving Repr, DecidableEq

/-- The persistent store visible to the controller. -/
structure Db where
  leaves : List Leave
  students : List Student
  parents : List Parent
deriving Repr, DecidableEq

/-- `Student.findOne({userId: req.user._id, institutionId: req.user.institutionId})`. -/
def findStudent (db : Db) (u : User) : Option Student :=
  db.students.find? (fun s => s.userId == u.id && s.institutionId == u.institutionId)

/-- `Parent.findOne({userId: req.user._id, institutionId: req.user.institutionId})`. -/
def findParent (db : Db) (u : User) : Option Parent :=
  db.parents.find? (fun p => p.userId == u.id && p.institutionId == u.institutionId)

/-- `Leave.findOne({_id: id, institutionId: req.user.institutionId})`. -/
def findLeave (db : Db) (id : Nat) (inst : Nat) : Option Leave :=
  db.leaves.find? (fun l => l.id == id && l.institutionId == inst)

/-- `leave.save()`: write the document back by `_id`. -/
def saveLeave (db : Db) (l : Leave) : Db :=
  { db with leaves := db.leaves.map (fun x => if x.id == l.id then l else x) }

/-- Outcome of a controller call: the persisted leave on success, or an
HTTP status code and message on failure. -/
inductive LeaveResult where
  | ok (leave : Leave)
  | err (code : Nat) (message : String)
deriving Repr, DecidableEq

def LeaveResult.isOk : LeaveResult → Bool
  | .ok _ => true
  | .err _ _ => false

/-- Request body of `POST /api/leaves`; `none` stands for an absent field
(an empty string is separately falsy in the JavaScript checks). -/
structure CreateBody where
  reason : Option String
  type : Option String
  outDate : Option Int
  inDate : Option Int
  outTime : Option String
  inTime : Option String
deriving Repr, DecidableEq

/-- The document persisted by `Leave.create` in `createLeaveRequest`. -/
def newLeaveRecord (u : User) (student : Student) (reason ty : String)
    (outD inD : Int) (outTime inTime : Option String) (now : Int)
    (newId : Nat) : Leave :=
  { id := newId
    institutionId := u.institutionId
    studentId := student.id
    reason := reason.trim
    type := ty
    outDate := outD
    inDate := inD
    outTime := outTime
    inTime := inTime
    status := "PendingParent"
    parentApprovalStatus := "Pending"
    parentApprovedBy := none
    parentApprovedAt := none
    parentRejectionReason := none
    approvedBy := none
    approvedAt := none
    rejectionReason := none
    statusHistory := [{ status := "PendingParent", role := "student",
                        updatedBy := none, reason := none, timestamp := now }]
    createdAt := now }

/-- `createLeaveRequest` (leaves controller): validate the falsy checks on
reason/type/outDate/inDate, require `outDate < inDate`, resolve the
student profile, then persist a new leave in `PendingParent` whose
history is seeded with the single creation entry. -/
def createLeaveRequest (u : User) (body : CreateBody) (db : Db) (now : Int)
    (newId : Nat) : LeaveResult × Db :=
  match body.reason, body.type, body.outDate, body.inDate with
  | some reason, some ty, some outD, some inD =>
    if reason = "" ∨ ty = "" then
      (.err 400 "Please provide reason, type, out date, and in date", db)
    else if inD ≤ outD then
      (.err 400 "Out date must be before in date", db)
    else
      match findStudent db u with
      | none => (.err 404 "Student profile not found", db)
      | some student =>
        let leave := newLeaveRecord u student reason ty outD inD
          body.outTime body.inTime now newId
        (.ok leave, { db with leaves := db.leaves ++ [leave] })
  | _, _, _, _ =>
    (.err 400 "Please provide reason, type, out date, and in date", db)

/-- `getAllLeaveRequests` (warden list): `Leave.find({...filter,
institutionId: req.user.institutionId})`.  Only the query predicate is
modelled; the controller additionally sorts by `createdAt` descending and
projects display fields, which do not affect membership. -/
def getAllLeaveRequests (u : User) (statusFilter : Option String) (db : Db) :
    List Leave :=
  db.leaves.filter (fun l =>
    (match statusFilter with
     | none => true
     | some s => l.status == s) && l.institutionId == u.institutionId)

/-- The history entry pushed by `parentApproveOrReject`. -/
def parentHistoryEntry (u : User) (status : String) (rejectionReason : Option String)
    (now : Int) : HistoryEntry :=
  { status := if status = "Approved" then "ApprovedByParent" else "RejectedByParent"
    updatedBy := some u.id
    role := "parent"
    reason := if status = "Rejected" then rejectionReason else none
    timestamp := now }

/-- The in-place mutation performed by a successful guardian decision:
sets status, `parentApprovalStatus`, `parentApprovedBy`,
`parentApprovedAt` (the last two unconditionally, also on rejection),
`parentRejectionReason` only on rejection, and pushes the history entry. -/
def parentUpdatedLeave (u : User) (l : Leave) (status : String)
    (rejectionReason : Option String) (now : Int) : Leave :=
  { l with
    status := if status = "Approved" then "ApprovedByParent" else "RejectedByParent"
    parentApprovalStatus := status
    parentApprovedBy := some u.id
    parentApprovedAt := some now
    parentRejectionReason :=
      if status = "Rejected" then rejectionReason else l.parentRejectionReason
    statusHistory := l.statusHistory ++ [parentHistoryEntry u status rejectionReason now] }

/-- `parentApproveOrReject`: validate the decision value, resolve the
parent profile (403 if none), load the leave scoped by institution (404),
require the parent to be linked to the leave's student (403), require
`status == 'PendingParent'` (400), then mutate the record in place and
`save()`. -/
def parentApproveOrReject (u : User) (id : Nat) (status : String)
    (rejectionReason : Option String) (db : Db) (now : Int) : LeaveResult × Db :=
  if ¬(status = "Approved" ∨ status = "Rejected") then
    (.err 400 "Invalid status. Must be Approved or Rejected", db)
  else
    match findParent db u with
    | none => (.err 403 "Parent profile not found", db)
    | some parent =>
      match findLeave db id u.institutionId with
      | none => (.err 404 "Leave request not found", db)
      | some leave =>
        if leave.studentId ≠ parent.studentId then
          (.err 403 "Not authorized to approve this leave request", db)
        else if leave.status ≠ "PendingParent" then
          (.err 400 "This leave request is not awaiting parent approval", db)
        else
          let leave' := parentUpdatedLeave u leave status rejectionReason now
          (.ok leave', saveLeave db leave')

/-- The history entry pushed by `updateLeaveStatus`. -/
def wardenHistoryEntry (u : User) (status : String) (rejectionReason : Option String)
    (now : Int) : HistoryEntry :=
  { status := status
    updatedBy := some u.id
    role := "warden"
    reason := if status = "Rejected" then rejectionReason else none
    timestamp := now }

/-- The `updateData` patch of `updateLeaveStatus`: sets `status` and
`approvedBy`, replaces `statusHistory` by the array computed from the
read taken earlier (`stale`) with the warden entry pushed, sets
`approvedAt` only on approval and `rejectionReason` only on rejection. -/
def wardenUpdateData (u : User) (stale : Leave) (status : String)
    (rejectionReason : Option String) (now : Int) : Leave → Leave :=
  fun l =>
    { l with
      status := status
      approvedBy := some u.id
      statusHistory := stale.statusHistory ++
        [wardenHistoryEntry u status rejectionReason now]
      approvedAt := if status = "Approved" then some now else l.approvedAt
      rejectionReason :=
        if status = "Rejected" then rejectionReason else l.rejectionReason }

/-- `Leave.findOneAndUpdate({_id: id, institutionId: inst}, patch,
{new: true})`: the filter is keyed only on id and institution — it has no
condition on the current status. -/
def findOneAndUpdateLeave (db : Db) (id : Nat) (inst : Nat)
    (patch : Leave → Leave) : Option Leave × Db :=
  match findLeave db id inst with
  | none => (none, db)
  | some l => (some (patch l), saveLeave db (patch l))

/-- `updateLeaveStatus` (warden decision): validate the decision value,
load the leave scoped by institution (404), require
`status == 'ApprovedByParent'` (400), then commit through
`findOneAndUpdate` keyed on id + institution. -/
def updateLeaveStatus (u : User) (id : Nat) (status : String)
    (rejectionReason : Option String) (db : Db) (now : Int) : LeaveResult × Db :=
  if ¬(status = "Approved" ∨ status = "Rejected") then
    (.err 400 "Invalid status. Must be Approved or Rejected", db)
  else
    match findLeave db id u.institutionId with
    | none => (.err 404 "Leave request not found", db)
    | some leave =>
      if leave.status ≠ "ApprovedByParent" then
        (.err 400 "Only parent-approved requests can be approved/rejected by warden", db)
      else
        match findOneAndUpdateLeave db id u.institutionId
            (wardenUpdateData u leave status rejectionReason now) with
        | (none, db') => (.err 404 "Leave request not found", db')
        | (some updated, db') => (.ok updated, db')

/-- `cancelMyLeaveRequest`: resolve the student profile (404), load the
leave scoped by institution (404), require ownership (403), require the
status to be `'Pending'` or `'PendingParent'` (400), then set
`status = 'Cancelled'` and `save()` — no history entry is pushed. -/
def cancelMyLeaveRequest (u : User) (id : Nat) (db : Db) : LeaveResult × Db :=
  match findStudent db u with
  | none => (.err 404 "Student profile not found", db)
  | some student =>
    match findLeave db id u.institutionId with
    | none => (.err 404 "Leave request not found", db)
    | some leave =>
      if leave.studentId ≠ student.id then
        (.err 403 "Not authorized to cancel this leave request", db)
      else if ¬(leave.status = "Pending" ∨ leave.status = "PendingParent") then
        (.err 400 "Only pending requests (before parent/warden approval) can be cancelled", db)
      else
        let leave' : Leave := { leave with status := "Cancelled" }
        (.ok leave', saveLeave db leave')

/-- The six states of the leave state machine. -/
def validStatuses : List String :=
  ["PendingParent", "ApprovedByParent", "RejectedByParent",
   "Approved", "Rejected", "Cancelled"]

/-- The directed edges of the transition table (§4.1). -/
def allowedEdge : String → String → Bool
  | "PendingParent", "ApprovedByParent" => true
  | "PendingParent", "RejectedByParent" => true
  | "ApprovedByParent", "Approved" => true
  | "ApprovedByParent", "Rejected" => true
  | "PendingParent", "Cancelled" => true
  | _, _ => false

/-! ### Concrete fixtures used by witnesses and counterexamples -/

/-- A freshly created leave of institution 1, owned by student 10. -/
def exLeave : Leave :=
  { id := 5, institutionId := 1, studentId := 10
    reason := "Home visit", type := "Personal"
    outDate := 0, inDate := 86400000
    outTime := none, inTime := none
    status := "PendingParent", parentApprovalStatus := "Pending"
    parentApprovedBy := none, parentApprovedAt := none
    parentRejectionReason := none
    approvedBy := none, approvedAt := none, rejectionReason := none
    statusHistory := [{ status := "PendingParent", role := "student",
                        updatedBy := none, reason := none, timestamp := 0 }]
    createdAt := 0 }

def exStudent : Student := { id := 10, userId := 1, institutionId := 1 }

/-- Guardian of student 10 (user 2). -/
def exParent : Parent := { id := 20, userId := 2, institutionId := 1, studentId := 10 }

/-- A guardian profile of the same institution linked to a different student. -/
def exParentOther : Parent := { id := 21, userId := 2, institutionId := 1, studentId := 11 }

def exDb : Db := { leaves := [exLeave], students := [exStudent], parents := [exParent] }

def exDbOther : Db := { leaves := [exLeave], students := [exStudent], parents := [exParentOther] }

def emptyDb : Db := { leaves := [], students := [], parents := [] }

/-- The same leave after the guardian approved it (awaiting the warden). -/
def exLeaveABP : Leave :=
  { exLeave with
    status := "ApprovedByParent"
    parentApprovalStatus := "Approved"
    parentApprovedBy := some 2
    parentApprovedAt := some 7
    statusHistory := exLeave.statusHistory ++
      [{ status := "ApprovedByParent", role := "parent", updatedBy := some 2,
         reason := none, timestamp := 7 }] }

def exDbABP : Db := { exDb with leaves := [exLeaveABP] }

/-- A leave of a different institution (tenant 2). -/
def exLeaveB : Leave := { exLeave with id := 6, institutionId := 2 }

/-- A guardian profile of institution 1 whose user is also student 10's user. -/
def exParentOfU1 : Parent := { id := 22, userId := 1, institutionId := 1, studentId := 10 }

def crossDb : Db :=
  { leaves := [exLeaveB], students := [exStudent], parents := [exParentOfU1] }

/-! ### The audit-trail invariant -/

/-- Consecutive entries of a history list follow the transition table. -/
def historyEdgesOk : List HistoryEntry → Bool
  | [] => true
  | [_] => true
  | a :: b :: rest => allowedEdge a.status b.status && historyEdgesOk (b :: rest)

/-- The status recorded by the final history entry. -/
def lastStatus : List HistoryEntry → Option String
  | [] => none
  | [e] => some e.status
  | _ :: e :: rest => lastStatus (e :: rest)

/-- Well-formedness of a stored leave: its status is one of the machine's
states, its history starts at the creation entry, consecutive history
entries follow the transition table, and the final entry matches the
current status — except after a cancellation, which records no entry and
leaves the final entry at `PendingParent`. -/
def LeaveInv (l : Leave) : Prop :=
  l.status ∈ validStatuses ∧
  historyEdgesOk l.statusHistory = true ∧
  l.statusHistory.head?.map HistoryEntry.status = some "PendingParent" ∧
  (lastStatus l.statusHistory = some l.status ∨
    (l.status = "Cancelled" ∧ lastStatus l.statusHistory = some "PendingParent"))

instance (l : Leave) : Decidable (LeaveInv l) := by
  unfold LeaveInv; infer_instance

/-- Every stored leave is well-formed. -/
def DbInv (db : Db) : Prop := ∀ l ∈ db.leaves, LeaveInv l

instance (db : Db) : Decidable (DbInv db) := by
  unfold DbInv; infer_instance

/-- The validation predicate of `createLeaveRequest`, read off the code:
a missing or empty reason, a missing or empty type, a missing out or in
date, or `outDate >= inDate`. -/
def createValidationFails (body : CreateBody) : Bool :=
  match body.reason, body.type, body.outDate, body.inDate with
  | some reason, some ty, some outD, some inD =>
    reason == "" || ty == "" || inD ≤ outD
  | _, _, _, _ => true

/-- Modelled from the spec: `LeaveStore.conditionalUpdate(id, institutionId,
expectedStatus, patch) -> success|conflict`, the compare-and-swap write of
§5/§6 that the claim C9 attributes to the implementation — it applies the
patch only when the stored record's current status equals the expected
one, and reports a conflict otherwise. -/
def conditionalUpdate (db : Db) (id : Nat) (inst : Nat) (expectedStatus : String)
    (patch : Leave → Leave) : Option Leave × Db :=
  match findLeave db id inst with
  | none => (none, db)
  | some l =>
    if l.status = expectedStatus then (some (patch l), saveLeave db (patch l))
    else (none, db)

/-- A creation request whose reason is whitespace-only (empty after
trimming). -/
def wsBody : CreateBody :=
  { reason := some " ", type := some "Personal", outDate := some 0,
    inDate := some 86400000, outTime := none, inTime := none }

/-- A creation request with equal out and in dates. -/
def eqDatesBody : CreateBody :=
  { reason := some "Home visit", type := some "Personal", outDate := some 5,
    inDate := some 5, outTime := none, inTime := none }

/-- First racing warden commit: warden 31 approves, its `updateData`
computed from the read `exLeaveABP` (whose `ApprovedByParent` check
passed). -/
def raceStep1 : Option Leave × Db :=
  findOneAndUpdateLeave exDbABP 5 1
    (wardenUpdateData ⟨31, 1⟩ exLeaveABP "Approved" none 10)

/-- Second racing warden commit: warden 32 rejects, its `updateData` also
computed from the read `exLeaveABP` taken before the first commit. -/
def raceStep2 : Option Leave × Db :=
  findOneAndUpdateLeave raceStep1.2 5 1
    (wardenUpdateData ⟨32, 1⟩ exLeaveABP "Rejected" (some "no") 11)

/-! ### Helper lemmas -/

theorem lastStatus_append (h : List HistoryEntry) (e : HistoryEntry) :
    lastStatus (h ++ [e]) = some e.status := by
  induction h with
  | nil => simp [lastStatus]
  | cons a t ih =>
    cases t with
    | nil => simp [lastStatus]
    | cons b t' => simpa [lastStatus] using ih

theorem historyEdgesOk_append (e : HistoryEntry) (h : List HistoryEntry) (s : String)
    (hh : historyEdgesOk h = true) (hl : lastStatus h = some s)
    (he : allowedEdge s e.status = true) :
    historyEdgesOk (h ++ [e]) = true := by
  induction h with
  | nil => simp [lastStatus] at hl
  | cons a t ih =>
    cases t with
    | nil =>
      simp [lastStatus] at hl
      subst hl
      simpa [historyEdgesOk] using he
    | cons b t' =>
      have hh' : allowedEdge a.status b.status = true ∧
          historyEdgesOk (b :: t') = true := by
        simpa [historyEdgesOk] using hh
      have hl' : lastStatus (b :: t') = some s := by simpa [lastStatus] using hl
      have hrec := ih hh'.2 hl'
      show historyEdgesOk (a :: ((b :: t') ++ [e])) = true
      simpa [historyEdgesOk, hh'.1] using hrec

/-- A leave found by `findLeave` belongs to the store and matches id and
institution. -/
theorem findLeave_mem {db : Db} {id inst : Nat} {l : Leave}
    (h : findLeave db id inst = some l) :
    l ∈ db.leaves ∧ l.id = id ∧ l.institutionId = inst := by
  unfold findLeave at h
  have hm := List.mem_of_find?_eq_some h
  have hp := List.find?_some h
  simp at hp
  exact ⟨hm, hp.1, hp.2⟩

/-- A cross-institution leave id is invisible to the scoped load. -/
theorem findLeave_cross_none (db : Db) (u : User) (l : Leave)
    (hl : l ∈ db.leaves)
    (huniq : ∀ l' ∈ db.leaves, l'.id = l.id → l' = l)
    (hinst : l.institutionId ≠ u.institutionId) :
    findLeave db l.id u.institutionId = none := by
  unfold findLeave
  rw [List.find?_eq_none]
  intro x hx hb
  simp at hb
  have hxl := huniq x hx hb.1
  subst hxl
  exact hinst hb.2

theorem head?_append_singleton {α : Type} (l : List α) (e : α) (hne : l ≠ []) :
    (l ++ [e]).head? = l.head? := by
  cases l with
  | nil => exact absurd rfl hne
  | cons a t => rfl

theorem findOneAndUpdateLeave_some {db : Db} {id inst : Nat} {patch : Leave → Leave}
    {l : Leave} (hl : findLeave db id inst = some l) :
    findOneAndUpdateLeave db id inst patch = (some (patch l), saveLeave db (patch l)) := by
  unfold findOneAndUpdateLeave
  rw [hl]

/-- Characterization of a successful guardian decision. -/
theorem parent_ok_elim {u : User} {id : Nat} {st : String} {r : Option String}
    {db : Db} {now : Int} {l' : Leave} {db' : Db}
    (h : parentApproveOrReject u id st r db now = (.ok l', db')) :
    (st = "Approved" ∨ st = "Rejected") ∧
    ∃ p l, findParent db u = some p ∧ findLeave db id u.institutionId = some l ∧
      l.studentId = p.studentId ∧ l.status = "PendingParent" ∧
      l' = parentUpdatedLeave u l st r now ∧ db' = saveLeave db l' := by
  unfold parentApproveOrReject at h
  split at h
  · simp at h
  next hst =>
    rw [not_not] at hst
    split at h
    · simp at h
    next p hp =>
      split at h
      · simp at h
      next l hl =>
        split at h
        · simp at h
        next hown =>
          rw [not_not] at hown
          split at h
          · simp at h
          next hpp =>
            rw [not_not] at hpp
            simp only [Prod.mk.injEq, LeaveResult.ok.injEq] at h
            exact ⟨hst, p, l, hp, hl, hown, hpp, h.1.symm, by rw [← h.2, ← h.1]⟩

/-- A guardian decision that fails leaves the database unchanged. -/
theorem parent_err_db {u : User} {id : Nat} {st : String} {r : Option String}
    {db : Db} {now : Int} {c : Nat} {m : String} {db' : Db}
    (h : parentApproveOrReject u id st r db now = (.err c m, db')) : db' = db := by
  unfold parentApproveOrReject at h
  split at h
  · exact ((Prod.mk.injEq ..).mp h).2.symm
  split at h
  · exact ((Prod.mk.injEq ..).mp h).2.symm
  next p hp =>
    split at h
    · exact ((Prod.mk.injEq ..).mp h).2.symm
    next l hl =>
      split at h
      · exact ((Prod.mk.injEq ..).mp h).2.symm
      split at h
      · exact ((Prod.mk.injEq ..).mp h).2.symm
      simp at h

/-- Characterization of a successful warden decision. -/
theorem warden_ok_elim {u : User} {id : Nat} {st : String} {r : Option String}
    {db : Db} {now : Int} {l' : Leave} {db' : Db}
    (h : updateLeaveStatus u id st r db now = (.ok l', db')) :
    (st = "Approved" ∨ st = "Rejected") ∧
    ∃ l, findLeave db id u.institutionId = some l ∧ l.status = "ApprovedByParent" ∧
      l' = wardenUpdateData u l st r now l ∧ db' = saveLeave db l' := by
  unfold updateLeaveStatus at h
  split at h
  · simp at h
  next hst =>
    rw [not_not] at hst
    split at h
    · simp at h
    next l hl =>
      split at h
      · simp at h
      next hpp =>
        rw [not_not] at hpp
        rw [findOneAndUpdateLeave_some hl] at h
        simp only [Prod.mk.injEq, LeaveResult.ok.injEq] at h
        exact ⟨hst, l, hl, hpp, h.1.symm, by rw [← h.2, ← h.1]⟩

/-- A warden decision that fails leaves the database unchanged. -/
theorem warden_err_db {u : User} {id : Nat} {st : String} {r : Option String}
    {db : Db} {now : Int} {c : Nat} {m : String} {db' : Db}
    (h : updateLeaveStatus u id st r db now = (.err c m, db')) : db' = db := by
  unfold updateLeaveStatus at h
  split at h
  · exact ((Prod.mk.injEq ..).mp h).2.symm
  split at h
  · exact ((Prod.mk.injEq ..).mp h).2.symm
  next l hl =>
    split at h
    · exact ((Prod.mk.injEq ..).mp h).2.symm
    rw [findOneAndUpdateLeave_some hl] at h
    simp at h

/-- Characterization of a successful cancellation. -/
theorem cancel_ok_elim {u : User} {id : Nat} {db : Db} {l' : Leave} {db' : Db}
    (h : cancelMyLeaveRequest u id db = (.ok l', db')) :
    ∃ s l, findStudent db u = some s ∧ findLeave db id u.institutionId = some l ∧
      l.studentId = s.id ∧ (l.status = "Pending" ∨ l.status = "PendingParent") ∧
      l' = { l with status := "Cancelled" } ∧ db' = saveLeave db l' := by
  unfold cancelMyLeaveRequest at h
  split at h
  · simp at h
  next s hs =>
    split at h
    · simp at h
    next l hl =>
      split at h
      · simp at h
      next hown =>
        rw [not_not] at hown
        split at h
        · simp at h
        next hpend =>
          rw [not_not] at hpend
          simp only [Prod.mk.injEq, LeaveResult.ok.injEq] at h
          exact ⟨s, l, hs, hl, hown, hpend, h.1.symm, by rw [← h.2, ← h.1]⟩

/-- A cancellation that fails leaves the database unchanged. -/
theorem cancel_err_db {u : User} {id : Nat} {db : Db} {c : Nat} {m : String} {db' : Db}
    (h : cancelMyLeaveRequest u id db = (.err c m, db')) : db' = db := by
  unfold cancelMyLeaveRequest at h
  split at h
  · exact ((Prod.mk.injEq ..).mp h).2.symm
  split at h
  · exact ((Prod.mk.injEq ..).mp h).2.symm
  next l hl =>
    split at h
    · exact ((Prod.mk.injEq ..).mp h).2.symm
    split at h
    · exact ((Prod.mk.injEq ..).mp h).2.symm
    simp at h

/-- Characterization of a successful creation. -/
theorem create_ok_elim {u : User} {body : CreateBody} {db : Db} {now : Int}
    {newId : Nat} {l' : Leave} {db' : Db}
    (h : createLeaveRequest u body db now newId = (.ok l', db')) :
    ∃ reason ty outD inD s, body.reason = some reason ∧ body.type = some ty ∧
      body.outDate = some outD ∧ body.inDate = some inD ∧
      reason ≠ "" ∧ ty ≠ "" ∧ outD < inD ∧ findStudent db u = some s ∧
      l' = newLeaveRecord u s reason ty outD inD body.outTime body.inTime now newId ∧
      db' = { db with leaves := db.leaves ++ [l'] } := by
  unfold createLeaveRequest at h
  split at h
  next reason ty outD inD hr ht ho hi =>
    split at h
    · simp at h
    next hne =>
      push_neg at hne
      split at h
      · simp at h
      next hdate =>
        push_neg at hdate
        split at h
        · simp at h
        next s hs =>
          simp only [Prod.mk.injEq, LeaveResult.ok.injEq] at h
          exact ⟨reason, ty, outD, inD, s, hr, ht, ho, hi, hne.1, hne.2,
            hdate, hs, h.1.symm, by rw [← h.2, ← h.1]⟩
  next =>
    simp at h

/-- A creation that fails leaves the database unchanged. -/
theorem create_err_db {u : User} {body : CreateBody} {db : Db} {now : Int}
    {newId : Nat} {c : Nat} {m : String} {db' : Db}
    (h : createLeaveRequest u body db now newId = (.err c m, db')) : db' = db := by
  unfold createLeaveRequest at h
  split at h
  · split at h
    · exact ((Prod.mk.injEq ..).mp h).2.symm
    split at h
    · exact ((Prod.mk.injEq ..).mp h).2.symm
    split at h
    · exact ((Prod.mk.injEq ..).mp h).2.symm
    simp at h
  · exact ((Prod.mk.injEq ..).mp h).2.symm

/-- A nonempty history keeps its first entry when one entry is appended. -/
theorem LeaveInv_history_ne_nil {l : Leave} (h : LeaveInv l) :
    l.statusHistory ≠ [] := by
  intro h0
  have := h.2.2.1
  rw [h0] at this
  simp at this

/-- Under the invariant, a leave in `PendingParent` has its last history
entry at `PendingParent`. -/
theorem LeaveInv_last_of_pending {l : Leave} (h : LeaveInv l)
    (hpp : l.status = "PendingParent") :
    lastStatus l.statusHistory = some "PendingParent" := by
  rcases h.2.2.2 with h1 | h2
  · rw [hpp] at h1; exact h1
  · rw [hpp] at h2; exact absurd h2.1 (by decide)

/-- Under the invariant, a leave in `ApprovedByParent` has its last
history entry at `ApprovedByParent`. -/
theorem LeaveInv_last_of_abp {l : Leave} (h : LeaveInv l)
    (habp : l.status = "ApprovedByParent") :
    lastStatus l.statusHistory = some "ApprovedByParent" := by
  rcases h.2.2.2 with h1 | h2
  · rw [habp] at h1; exact h1
  · rw [habp] at h2; exact absurd h2.1 (by decide)

/-- A successful guardian decision preserves the leave invariant. -/
theorem LeaveInv_parentUpdated {u : User} {l : Leave} {st : String}
    {r : Option String} {now : Int} (hinv : LeaveInv l)
    (hst : st = "Approved" ∨ st = "Rejected") (hpp : l.status = "PendingParent") :
    LeaveInv (parentUpdatedLeave u l st r now) := by
  have hlast := LeaveInv_last_of_pending hinv hpp
  obtain ⟨hv, he, hh, -⟩ := hinv
  have hne : l.statusHistory ≠ [] := by
    intro h0; rw [h0] at hh; simp at hh
  rcases hst with rfl | rfl
  · refine ⟨by simp [parentUpdatedLeave, validStatuses], ?_, ?_, Or.inl ?_⟩
    · show historyEdgesOk
        (l.statusHistory ++ [parentHistoryEntry u "Approved" r now]) = true
      exact historyEdgesOk_append _ _ "PendingParent" he hlast (by rfl)
    · show (l.statusHistory ++
        [parentHistoryEntry u "Approved" r now]).head?.map HistoryEntry.status =
          some "PendingParent"
      rw [head?_append_singleton _ _ hne]; exact hh
    · show lastStatus (l.statusHistory ++ [parentHistoryEntry u "Approved" r now]) =
        some (parentUpdatedLeave u l "Approved" r now).status
      rw [lastStatus_append]; rfl
  · refine ⟨by simp [parentUpdatedLeave, validStatuses], ?_, ?_, Or.inl ?_⟩
    · show historyEdgesOk
        (l.statusHistory ++ [parentHistoryEntry u "Rejected" r now]) = true
      exact historyEdgesOk_append _ _ "PendingParent" he hlast (by rfl)
    · show (l.statusHistory ++
        [parentHistoryEntry u "Rejected" r now]).head?.map HistoryEntry.status =
          some "PendingParent"
      rw [head?_append_singleton _ _ hne]; exact hh
    · show lastStatus (l.statusHistory ++ [parentHistoryEntry u "Rejected" r now]) =
        some (parentUpdatedLeave u l "Rejected" r now).status
      rw [lastStatus_append]; rfl

/-- A successful warden decision preserves the leave invariant. -/
theorem LeaveInv_wardenUpdated {u : User} {l : Leave} {st : String}
    {r : Option String} {now : Int} (hinv : LeaveInv l)
    (hst : st = "Approved" ∨ st = "Rejected") (habp : l.status = "ApprovedByParent") :
    LeaveInv (wardenUpdateData u l st r now l) := by
  have hlast := LeaveInv_last_of_abp hinv habp
  obtain ⟨hv, he, hh, -⟩ := hinv
  have hne : l.statusHistory ≠ [] := by
    intro h0; rw [h0] at hh; simp at hh
  rcases hst with rfl | rfl
  · refine ⟨by simp [wardenUpdateData, validStatuses], ?_, ?_, Or.inl ?_⟩
    · show historyEdgesOk
        (l.statusHistory ++ [wardenHistoryEntry u "Approved" r now]) = true
      exact historyEdgesOk_append _ _ "ApprovedByParent" he hlast (by rfl)
    · show (l.statusHistory ++
        [wardenHistoryEntry u "Approved" r now]).head?.map HistoryEntry.status =
          some "PendingParent"
      rw [head?_append_singleton _ _ hne]; exact hh
    · show lastStatus (l.statusHistory ++ [wardenHistoryEntry u "Approved" r now]) =
        some (wardenUpdateData u l "Approved" r now l).status
      rw [lastStatus_append]; rfl
  · refine ⟨by simp [wardenUpdateData, validStatuses], ?_, ?_, Or.inl ?_⟩
    · show historyEdgesOk
        (l.statusHistory ++ [wardenHistoryEntry u "Rejected" r now]) = true
      exact historyEdgesOk_append _ _ "ApprovedByParent" he hlast (by rfl)
    · show (l.statusHistory ++
        [wardenHistoryEntry u "Rejected" r now]).head?.map HistoryEntry.status =
          some "PendingParent"
      rw [head?_append_singleton _ _ hne]; exact hh
    · show lastStatus (l.statusHistory ++ [wardenHistoryEntry u "Rejected" r now]) =
        some (wardenUpdateData u l "Rejected" r now l).status
      rw [lastStatus_append]; rfl

/-- A successful cancellation preserves the leave invariant (no entry is
appended; the status becomes `Cancelled`). -/
theorem LeaveInv_cancelled {l : Leave} (hinv : LeaveInv l)
    (hst : l.status = "Pending" ∨ l.status = "PendingParent") :
    LeaveInv { l with status := "Cancelled" } := by
  have hpp : l.status = "PendingParent" := by
    rcases hst with hp | hp
    · have hmem : ("Pending" : String) ∈ validStatuses := by
        rw [← hp]; exact hinv.1
      exact absurd hmem (by decide)
    · exact hp
  have hlast := LeaveInv_last_of_pending hinv hpp
  obtain ⟨hv, he, hh, -⟩ := hinv
  refine ⟨?_, he, hh, Or.inr ⟨rfl, hlast⟩⟩
  show ("Cancelled" : String) ∈ validStatuses
  decide

/-- The newly created leave satisfies the invariant. -/
theorem LeaveInv_newLeaveRecord (u : User) (s : Student) (reason ty : String)
    (outD inD : Int) (outTime inTime : Option String) (now : Int) (newId : Nat) :
    LeaveInv (newLeaveRecord u s reason ty outD inD outTime inTime now newId) := by
  refine ⟨?_, by rfl, by rfl, Or.inl (by rfl)⟩
  show ("PendingParent" : String) ∈ validStatuses
  decide

/-- Replacing a stored leave by an invariant-preserving one keeps the
store invariant. -/
theorem DbInv_saveLeave {db : Db} {l' : Leave} (hdb : DbInv db)
    (hinv : LeaveInv l') : DbInv (saveLeave db l') := by
  intro x hx
  unfold saveLeave at hx
  simp only [List.mem_map] at hx
  obtain ⟨y, hy, rfl⟩ := hx
  split
  · exact hinv
  · exact hdb y hy

/-- Creation preserves the store invariant. -/
theorem DbInv_create (u : User) (body : CreateBody) (db : Db) (now : Int)
    (newId : Nat) (hdb : DbInv db) :
    DbInv (createLeaveRequest u body db now newId).2 := by
  rcases hres : createLeaveRequest u body db now newId with ⟨res, db'⟩
  show DbInv db'
  cases res with
  | err c m => rw [create_err_db hres]; exact hdb
  | ok l' =>
    obtain ⟨reason, ty, outD, inD, s, -, -, -, -, -, -, -, -, hl', hdb'⟩ :=
      create_ok_elim hres
    rw [hdb']
    intro x hx
    replace hx : x ∈ db.leaves ++ [l'] := hx
    rw [List.mem_append, List.mem_singleton] at hx
    rcases hx with hx | rfl
    · exact hdb x hx
    · rw [hl']; exact LeaveInv_newLeaveRecord ..

/-- A guardian decision preserves the store invariant. -/
theorem DbInv_parentDecision (u : User) (id : Nat) (st : String)
    (r : Option String) (db : Db) (now : Int) (hdb : DbInv db) :
    DbInv (parentApproveOrReject u id st r db now).2 := by
  rcases hres : parentApproveOrReject u id st r db now with ⟨res, db'⟩
  show DbInv db'
  cases res with
  | err c m => rw [parent_err_db hres]; exact hdb
  | ok l' =>
    obtain ⟨hst, p, l, hp, hl, hown, hpp, rfl, rfl⟩ := parent_ok_elim hres
    exact DbInv_saveLeave hdb
      (LeaveInv_parentUpdated (hdb l (findLeave_mem hl).1) hst hpp)

/-- A warden decision preserves the store invariant. -/
theorem DbInv_wardenDecision (u : User) (id : Nat) (st : String)
    (r : Option String) (db : Db) (now : Int) (hdb : DbInv db) :
    DbInv (updateLeaveStatus u id st r db now).2 := by
  rcases hres : updateLeaveStatus u id st r db now with ⟨res, db'⟩
  show DbInv db'
  cases res with
  | err c m => rw [warden_err_db hres]; exact hdb
  | ok l' =>
    obtain ⟨hst, l, hl, habp, rfl, rfl⟩ := warden_ok_elim hres
    exact DbInv_saveLeave hdb
      (LeaveInv_wardenUpdated (hdb l (findLeave_mem hl).1) hst habp)

/-- A cancellation preserves the store invariant. -/
theorem DbInv_cancel (u : User) (id : Nat) (db : Db) (hdb : DbInv db) :
    DbInv (cancelMyLeaveRequest u id db).2 := by
  rcases hres : cancelMyLeaveRequest u id db with ⟨res, db'⟩
  show DbInv db'
  cases res with
  | err c m => rw [cancel_err_db hres]; exact hdb
  | ok l' =>
    obtain ⟨s, l, hs, hl, hown, hpend, rfl, rfl⟩ := cancel_ok_elim hres
    exact DbInv_saveLeave hdb
      (LeaveInv_cancelled (hdb l (findLeave_mem hl).1) hpend)

/-- C10: a guardian or warden decision whose decision value is neither
`Approved` nor `Rejected` fails with the validation error
"Invalid status. Must be Approved or Rejected" before any actor
resolution or leave load (the result is this error with the database
unchanged, for every database whatsoever), and no leave record changes. -/
theorem c10_invalid_decision_rejected_first (u : User) (id : Nat) (st : String)
    (r : Option String) (db : Db) (now : Int)
    (hA : st ≠ "Approved") (hR : st ≠ "Rejected") :
    parentApproveOrReject u id st r db now =
      (.err 400 "Invalid status. Must be Approved or Rejected", db) ∧
    updateLeaveStatus u id st r db now =
      (.err 400 "Invalid status. Must be Approved or Rejected", db) := by
  constructor <;> simp [parentApproveOrReject, updateLeaveStatus, hA, hR]

theorem c10_witness :
    parentApproveOrReject ⟨1, 1⟩ 5 "Maybe" none emptyDb 0 =
      (.err 400 "Invalid status. Must be Approved or Rejected", emptyDb) ∧
    updateLeaveStatus ⟨1, 1⟩ 5 "Maybe" none emptyDb 0 =
      (.err 400 "Invalid status. Must be Approved or Rejected", emptyDb) :=
  c10_invalid_decision_rejected_first ⟨1, 1⟩ 5 "Maybe" none emptyDb 0
    (by decide) (by decide)

/-- C7: a warden decision on a leave whose current status is not
`ApprovedByParent` fails with the invalid-state error and leaves the
database unchanged. -/
theorem c7_warden_requires_parent_approved (u : User) (id : Nat) (st : String)
    (r : Option String) (db : Db) (now : Int) (l : Leave)
    (hst : st = "Approved" ∨ st = "Rejected")
    (hfind : findLeave db id u.institutionId = some l)
    (hns : l.status ≠ "ApprovedByParent") :
    updateLeaveStatus u id st r db now =
      (.err 400 "Only parent-approved requests can be approved/rejected by warden", db) := by
  simp [updateLeaveStatus, hst, hfind, hns]

theorem c7_witness :
    updateLeaveStatus ⟨3, 1⟩ 5 "Approved" none exDb 0 =
      (.err 400 "Only parent-approved requests can be approved/rejected by warden", exDb) :=
  c7_warden_requires_parent_approved ⟨3, 1⟩ 5 "Approved" none exDb 0 exLeave
    (Or.inl rfl) (by decide) (by decide)

/-- C6: only the guardian linked to the leave's resident may record a
guardian decision: a caller with no guardian profile in the institution
fails with 403 "Parent profile not found", and a guardian whose linked
`studentId` differs from the leave's `studentId` fails with 403
"Not authorized to approve this leave request"; in both cases the
database is unchanged. -/
theorem c6_guardian_link_required (u : User) (id : Nat) (st : String)
    (r : Option String) (db : Db) (now : Int)
    (hst : st = "Approved" ∨ st = "Rejected") :
    (findParent db u = none →
      parentApproveOrReject u id st r db now =
        (.err 403 "Parent profile not found", db)) ∧
    (∀ p l, findParent db u = some p → findLeave db id u.institutionId = some l →
      l.studentId ≠ p.studentId →
      parentApproveOrReject u id st r db now =
        (.err 403 "Not authorized to approve this leave request", db)) := by
  constructor
  · intro h; simp [parentApproveOrReject, hst, h]
  · intro p l hp hl hne; simp [parentApproveOrReject, hst, hp, hl, hne]

theorem c6_witness :
    parentApproveOrReject ⟨9, 1⟩ 5 "Approved" none exDb 0 =
      (.err 403 "Parent profile not found", exDb) ∧
    parentApproveOrReject ⟨2, 1⟩ 5 "Approved" none exDbOther 0 =
      (.err 403 "Not authorized to approve this leave request", exDbOther) :=
  ⟨(c6_guardian_link_required ⟨9, 1⟩ 5 "Approved" none exDb 0 (Or.inl rfl)).1
      (by decide),
   (c6_guardian_link_required ⟨2, 1⟩ 5 "Approved" none exDbOther 0 (Or.inl rfl)).2
      exParentOther exLeave (by decide) (by decide) (by decide)⟩

/-- C4: only the owning resident may cancel (a non-owner gets 403), and
only while the status is `PendingParent`: for a status drawn from the
state machine's states, any status other than `PendingParent` fails with
the invalid-state error and the database is unchanged, while the owner
in `PendingParent` succeeds (the record becomes `Cancelled`). -/
theorem c4_cancel_owner_and_pending_only (u : User) (id : Nat) (db : Db)
    (s : Student) (l : Leave)
    (hs : findStudent db u = some s)
    (hl : findLeave db id u.institutionId = some l) :
    (l.studentId ≠ s.id →
      cancelMyLeaveRequest u id db =
        (.err 403 "Not authorized to cancel this leave request", db)) ∧
    (l.studentId = s.id → l.status ∈ validStatuses → l.status ≠ "PendingParent" →
      cancelMyLeaveRequest u id db =
        (.err 400 "Only pending requests (before parent/warden approval) can be cancelled", db)) ∧
    (l.studentId = s.id → l.status = "PendingParent" →
      cancelMyLeaveRequest u id db =
        (.ok { l with status := "Cancelled" },
         saveLeave db { l with status := "Cancelled" })) := by
  refine ⟨?_, ?_, ?_⟩
  · intro h; simp [cancelMyLeaveRequest, hs, hl, h]
  · intro ho hv hns
    have hnp : l.status ≠ "Pending" := by
      intro hp; rw [hp] at hv; exact absurd hv (by decide)
    simp [cancelMyLeaveRequest, hs, hl, ho, hns, hnp]
  · intro ho hp; simp [cancelMyLeaveRequest, hs, hl, ho, hp]

/-- C1: the status only moves along the edges of the transition table:
a guardian decision is accepted only from `PendingParent` (to
`ApprovedByParent`/`RejectedByParent`), a warden decision only from
`ApprovedByParent` (to `Approved`/`Rejected`), a cancellation only from
`PendingParent` (among the machine's states; to `Cancelled`); every
other (state, event) pair is rejected with the invalid-state error and
the store unchanged; and the store invariant — every recorded history
transition is an edge of the table — is preserved by all operations, so
no illegal jump is ever observable in `statusHistory`. -/
theorem c1_state_machine :
    (∀ u id st r db now l l' db',
      findLeave db id u.institutionId = some l →
      parentApproveOrReject u id st r db now = (.ok l', db') →
      l.status = "PendingParent" ∧
      (l'.status = "ApprovedByParent" ∨ l'.status = "RejectedByParent") ∧
      allowedEdge l.status l'.status = true) ∧
    (∀ u id st r db now p l,
      (st = "Approved" ∨ st = "Rejected") →
      findParent db u = some p → findLeave db id u.institutionId = some l →
      l.studentId = p.studentId → l.status ≠ "PendingParent" →
      parentApproveOrReject u id st r db now =
        (.err 400 "This leave request is not awaiting parent approval", db)) ∧
    (∀ u id st r db now l l' db',
      findLeave db id u.institutionId = some l →
      updateLeaveStatus u id st r db now = (.ok l', db') →
      l.status = "ApprovedByParent" ∧
      (l'.status = "Approved" ∨ l'.status = "Rejected") ∧
      allowedEdge l.status l'.status = true) ∧
    (∀ u id st r db now l,
      (st = "Approved" ∨ st = "Rejected") →
      findLeave db id u.institutionId = some l → l.status ≠ "ApprovedByParent" →
      updateLeaveStatus u id st r db now =
        (.err 400 "Only parent-approved requests can be approved/rejected by warden", db)) ∧
    (∀ u id db l l' db',
      findLeave db id u.institutionId = some l → l.status ∈ validStatuses →
      cancelMyLeaveRequest u id db = (.ok l', db') →
      l.status = "PendingParent" ∧ l'.status = "Cancelled" ∧
      allowedEdge l.status l'.status = true) ∧
    (∀ u id db s l,
      findStudent db u = some s → findLeave db id u.institutionId = some l →
      l.studentId = s.id → l.status ∈ validStatuses → l.status ≠ "PendingParent" →
      cancelMyLeaveRequest u id db =
        (.err 400 "Only pending requests (before parent/warden approval) can be cancelled", db)) ∧
    (∀ u body db now newId, DbInv db →
      DbInv (createLeaveRequest u body db now newId).2) ∧
    (∀ u id st r db now, DbInv db →
      DbInv (parentApproveOrReject u id st r db now).2) ∧
    (∀ u id st r db now, DbInv db →
      DbInv (updateLeaveStatus u id st r db now).2) ∧
    (∀ u id db, DbInv db → DbInv (cancelMyLeaveRequest u id db).2) := by
  refine ⟨?_, ?_, ?_, ?_, ?_, ?_, DbInv_create, DbInv_parentDecision,
    DbInv_wardenDecision, DbInv_cancel⟩
  · intro u id st r db now l l' db' hfind h
    obtain ⟨hst, p, l0, hp, hl0, hown, hpp, rfl, -⟩ := parent_ok_elim h
    rw [hfind, Option.some.injEq] at hl0
    subst hl0
    rcases hst with rfl | rfl
    · exact ⟨hpp, Or.inl rfl, by rw [hpp]; rfl⟩
    · exact ⟨hpp, Or.inr rfl, by rw [hpp]; rfl⟩
  · intro u id st r db now p l hst hp hl hown hns
    simp [parentApproveOrReject, hst, hp, hl, hown, hns]
  · intro u id st r db now l l' db' hfind h
    obtain ⟨hst, l0, hl0, habp, rfl, -⟩ := warden_ok_elim h
    rw [hfind, Option.some.injEq] at hl0
    subst hl0
    rcases hst with rfl | rfl
    · exact ⟨habp, Or.inl rfl, by rw [habp]; rfl⟩
    · exact ⟨habp, Or.inr rfl, by rw [habp]; rfl⟩
  · intro u id st r db now l hst hl hns
    simp [updateLeaveStatus, hst, hl, hns]
  · intro u id db l l' db' hfind hv h
    obtain ⟨s, l0, hs, hl0, hown, hpend, rfl, -⟩ := cancel_ok_elim h
    rw [hfind, Option.some.injEq] at hl0
    subst hl0
    have hpp : l.status = "PendingParent" := by
      rcases hpend with hpd | hpd
      · rw [hpd] at hv; exact absurd hv (by decide)
      · exact hpd
    exact ⟨hpp, rfl, by rw [hpp]; rfl⟩
  · intro u id db s l hs hl hown hv hns
    have hnp : l.status ≠ "Pending" := by
      intro hpd; rw [hpd] at hv; exact absurd hv (by decide)
    simp [cancelMyLeaveRequest, hs, hl, hown, hns, hnp]

theorem c1_witness :
    parentApproveOrReject ⟨2, 1⟩ 5 "Approved" none exDbABP 7 =
      (.err 400 "This leave request is not awaiting parent approval", exDbABP) ∧
    DbInv (cancelMyLeaveRequest ⟨1, 1⟩ 5 exDb).2 :=
  ⟨c1_state_machine.2.1 ⟨2, 1⟩ 5 "Approved" none exDbABP 7 exParent exLeaveABP
      (Or.inl rfl) (by decide) (by decide) (by decide) (by decide),
   c1_state_machine.2.2.2.2.2.2.2.2.2 ⟨1, 1⟩ 5 exDb (by decide)⟩

/-- C2 counterexample: a successful owner cancellation — an accepted
transition — appends no entry at all to `statusHistory` (the stored
history keeps length 1 while the status becomes `Cancelled`), so the
claim that every successful transition appends exactly one entry is
false on the code. -/
theorem c2_counterexample :
    cancelMyLeaveRequest ⟨1, 1⟩ 5 exDb =
      (.ok { exLeave with status := "Cancelled" },
       saveLeave exDb { exLeave with status := "Cancelled" }) ∧
    ({ exLeave with status := "Cancelled" } : Leave).statusHistory.length =
      exLeave.statusHistory.length ∧
    exLeave.statusHistory.length = 1 := by
  refine ⟨by decide, rfl, rfl⟩

/-- C2 (amended): creation seeds `statusHistory` with exactly the single
creation entry; a successful guardian or warden decision appends exactly
one entry and never removes, reorders or mutates prior entries; a
rejected transition leaves the store unchanged; but a successful owner
cancellation appends no entry (the history is unchanged while the status
becomes `Cancelled`). -/
theorem c2_history_discipline :
    (∀ u body db now newId l' db',
      createLeaveRequest u body db now newId = (.ok l', db') →
      l'.statusHistory = [{ status := "PendingParent", role := "student",
                            updatedBy := none, reason := none, timestamp := now }]) ∧
    (∀ u id st r db now l l' db',
      findLeave db id u.institutionId = some l →
      parentApproveOrReject u id st r db now = (.ok l', db') →
      l'.statusHistory = l.statusHistory ++ [parentHistoryEntry u st r now]) ∧
    (∀ u id st r db now l l' db',
      findLeave db id u.institutionId = some l →
      updateLeaveStatus u id st r db now = (.ok l', db') →
      l'.statusHistory = l.statusHistory ++ [wardenHistoryEntry u st r now]) ∧
    (∀ u id db l l' db',
      findLeave db id u.institutionId = some l →
      cancelMyLeaveRequest u id db = (.ok l', db') →
      l'.statusHistory = l.statusHistory ∧ l'.status = "Cancelled") ∧
    (∀ u id st r db now c m db',
      parentApproveOrReject u id st r db now = (.err c m, db') → db' = db) ∧
    (∀ u id st r db now c m db',
      updateLeaveStatus u id st r db now = (.err c m, db') → db' = db) ∧
    (∀ u id db c m db',
      cancelMyLeaveRequest u id db = (.err c m, db') → db' = db) := by
  refine ⟨?_, ?_, ?_, ?_, fun _ _ _ _ _ _ _ _ _ h => parent_err_db h,
    fun _ _ _ _ _ _ _ _ _ h => warden_err_db h,
    fun _ _ _ _ _ _ h => cancel_err_db h⟩
  · intro u body db now newId l' db' h
    obtain ⟨reason, ty, outD, inD, s, -, -, -, -, -, -, -, -, rfl, -⟩ :=
      create_ok_elim h
    rfl
  · intro u id st r db now l l' db' hfind h
    obtain ⟨hst, p, l0, hp, hl0, hown, hpp, rfl, -⟩ := parent_ok_elim h
    rw [hfind, Option.some.injEq] at hl0
    subst hl0
    rfl
  · intro u id st r db now l l' db' hfind h
    obtain ⟨hst, l0, hl0, habp, rfl, -⟩ := warden_ok_elim h
    rw [hfind, Option.some.injEq] at hl0
    subst hl0
    rfl
  · intro u id db l l' db' hfind h
    obtain ⟨s, l0, hs, hl0, hown, hpend, rfl, -⟩ := cancel_ok_elim h
    rw [hfind, Option.some.injEq] at hl0
    subst hl0
    exact ⟨rfl, rfl⟩

theorem c2_witness :
    ({ exLeave with status := "Cancelled" } : Leave).statusHistory =
      exLeave.statusHistory ∧
    ({ exLeave with status := "Cancelled" } : Leave).status = "Cancelled" :=
  c2_history_discipline.2.2.2.1 ⟨1, 1⟩ 5 exDb exLeave
    { exLeave with status := "Cancelled" }
    (saveLeave exDb { exLeave with status := "Cancelled" })
    (by decide) (by decide)

theorem c4_witness :
    cancelMyLeaveRequest ⟨1, 1⟩ 5 exDb =
      (.ok { exLeave with status := "Cancelled" },
       saveLeave exDb { exLeave with status := "Cancelled" }) :=
  (c4_cancel_owner_and_pending_only ⟨1, 1⟩ 5 exDb exStudent exLeave
      (by decide) (by decide)).2.2 (by decide) (by decide)

/-- C3 counterexample: an accepted guardian rejection also sets
`parentApprovedBy` and `parentApprovedAt` (here from `none` to the
caller and the current time), and an accepted warden rejection also sets
`approvedBy`; the claim that rejections leave those fields unchanged is
false on the code. -/
theorem c3_counterexample :
    (parentApproveOrReject ⟨2, 1⟩ 5 "Rejected" (some "busy") exDb 7).1 =
      .ok (parentUpdatedLeave ⟨2, 1⟩ exLeave "Rejected" (some "busy") 7) ∧
    exLeave.parentApprovedBy = none ∧
    (parentUpdatedLeave ⟨2, 1⟩ exLeave "Rejected" (some "busy") 7).parentApprovedBy =
      some 2 ∧
    exLeave.parentApprovedAt = none ∧
    (parentUpdatedLeave ⟨2, 1⟩ exLeave "Rejected" (some "busy") 7).parentApprovedAt =
      some 7 ∧
    (updateLeaveStatus ⟨3, 1⟩ 5 "Rejected" (some "no") exDbABP 9).1 =
      .ok (wardenUpdateData ⟨3, 1⟩ exLeaveABP "Rejected" (some "no") 9 exLeaveABP) ∧
    exLeaveABP.approvedBy = none ∧
    (wardenUpdateData ⟨3, 1⟩ exLeaveABP "Rejected" (some "no") 9 exLeaveABP).approvedBy =
      some 3 := by
  refine ⟨by decide, rfl, by decide, rfl, by decide, by decide, rfl, by decide⟩

/-- C3 (amended): an accepted guardian rejection
(`PendingParent → RejectedByParent`) sets `parentApprovalStatus =
Rejected`, `parentRejectionReason`, and also `parentApprovedBy` and
`parentApprovedAt`, appends the one history entry, and leaves every
other field unchanged; an accepted warden rejection
(`ApprovedByParent → Rejected`) sets `rejectionReason` and also
`approvedBy` (but not `approvedAt`), appends the one history entry, and
leaves every other field unchanged. -/
theorem c3_rejection_frame :
    (∀ u id r db now l l' db',
      findLeave db id u.institutionId = some l →
      parentApproveOrReject u id "Rejected" r db now = (.ok l', db') →
      l'.status = "RejectedByParent" ∧ l'.parentApprovalStatus = "Rejected" ∧
      l'.parentRejectionReason = r ∧
      l'.parentApprovedBy = some u.id ∧ l'.parentApprovedAt = some now ∧
      l'.statusHistory = l.statusHistory ++ [parentHistoryEntry u "Rejected" r now] ∧
      l'.id = l.id ∧ l'.institutionId = l.institutionId ∧
      l'.studentId = l.studentId ∧ l'.reason = l.reason ∧ l'.type = l.type ∧
      l'.outDate = l.outDate ∧ l'.inDate = l.inDate ∧ l'.outTime = l.outTime ∧
      l'.inTime = l.inTime ∧ l'.approvedBy = l.approvedBy ∧
      l'.approvedAt = l.approvedAt ∧ l'.rejectionReason = l.rejectionReason ∧
      l'.createdAt = l.createdAt) ∧
    (∀ u id r db now l l' db',
      findLeave db id u.institutionId = some l →
      updateLeaveStatus u id "Rejected" r db now = (.ok l', db') →
      l'.status = "Rejected" ∧ l'.rejectionReason = r ∧
      l'.approvedBy = some u.id ∧ l'.approvedAt = l.approvedAt ∧
      l'.statusHistory = l.statusHistory ++ [wardenHistoryEntry u "Rejected" r now] ∧
      l'.id = l.id ∧ l'.institutionId = l.institutionId ∧
      l'.studentId = l.studentId ∧ l'.reason = l.reason ∧ l'.type = l.type ∧
      l'.outDate = l.outDate ∧ l'.inDate = l.inDate ∧ l'.outTime = l.outTime ∧
      l'.inTime = l.inTime ∧ l'.parentApprovalStatus = l.parentApprovalStatus ∧
      l'.parentApprovedBy = l.parentApprovedBy ∧
      l'.parentApprovedAt = l.parentApprovedAt ∧
      l'.parentRejectionReason = l.parentRejectionReason ∧
      l'.createdAt = l.createdAt) := by
  constructor
  · intro u id r db now l l' db' hfind h
    obtain ⟨-, p, l0, hp, hl0, hown, hpp, rfl, -⟩ := parent_ok_elim h
    rw [hfind, Option.some.injEq] at hl0
    subst hl0
    exact ⟨rfl, rfl, rfl, rfl, rfl, rfl, rfl, rfl, rfl, rfl, rfl, rfl, rfl,
      rfl, rfl, rfl, rfl, rfl, rfl⟩
  · intro u id r db now l l' db' hfind h
    obtain ⟨-, l0, hl0, habp, rfl, -⟩ := warden_ok_elim h
    rw [hfind, Option.some.injEq] at hl0
    subst hl0
    exact ⟨rfl, rfl, rfl, rfl, rfl, rfl, rfl, rfl, rfl, rfl, rfl, rfl, rfl,
      rfl, rfl, rfl, rfl, rfl, rfl⟩

theorem c3_witness :
    (parentUpdatedLeave ⟨2, 1⟩ exLeave "Rejected" (some "busy") 7).parentApprovalStatus =
      "Rejected" :=
  (c3_rejection_frame.1 ⟨2, 1⟩ 5 (some "busy") exDb 7 exLeave
    (parentUpdatedLeave ⟨2, 1⟩ exLeave "Rejected" (some "busy") 7)
    (saveLeave exDb (parentUpdatedLeave ⟨2, 1⟩ exLeave "Rejected" (some "busy") 7))
    (by decide) (by decide)).2.1

/-- C5 counterexample: a creation whose reason is the whitespace string
`" "` — empty after trimming — does not fail with a validation error:
the code's falsy check passes it, the leave is created (the store grows
to two records) and the trimmed reason is persisted; the claim that a
reason that is empty after trimming always fails is false on the code. -/
theorem c5_counterexample :
    (createLeaveRequest ⟨1, 1⟩ wsBody exDb 0 7).1 =
      .ok (newLeaveRecord ⟨1, 1⟩ exStudent " " "Personal" 0 86400000 none none 0 7) ∧
    (createLeaveRequest ⟨1, 1⟩ wsBody exDb 0 7).2.leaves.length = 2 := by
  exact ⟨rfl, rfl⟩

/-- C5 (amended): creation fails with a 400 validation error exactly when
the request is falsy-invalid — the reason or type is absent or the empty
string (a whitespace-only reason passes and is stored trimmed), the out
or in date is absent, or `outDate >= inDate` (equal dates fail, strict
inequality required) — and on such failure the store is unchanged, so no
leave record is created. -/
theorem c5_validation_iff (u : User) (body : CreateBody) (db : Db)
    (now : Int) (newId : Nat) :
    (createValidationFails body = true ↔
      ((createLeaveRequest u body db now newId).1 =
          .err 400 "Please provide reason, type, out date, and in date" ∨
       (createLeaveRequest u body db now newId).1 =
          .err 400 "Out date must be before in date")) ∧
    (createValidationFails body = true →
      (createLeaveRequest u body db now newId).2 = db) := by
  rcases body with ⟨reason, ty, outD, inD, outT, inT⟩
  constructor
  · cases reason with
    | none => simp [createLeaveRequest, createValidationFails]
    | some reason =>
      cases ty with
      | none => simp [createLeaveRequest, createValidationFails]
      | some ty =>
        cases outD with
        | none => simp [createLeaveRequest, createValidationFails]
        | some outD =>
          cases inD with
          | none => simp [createLeaveRequest, createValidationFails]
          | some inD =>
            by_cases hr : reason = ""
            · simp [createLeaveRequest, createValidationFails, hr]
            by_cases ht : ty = ""
            · simp [createLeaveRequest, createValidationFails, hr, ht]
            by_cases hd : inD ≤ outD
            · simp [createLeaveRequest, createValidationFails, hr, ht, hd]
            · simp only [createLeaveRequest, createValidationFails]
              rw [if_neg (by simp [hr, ht]), if_neg hd]
              cases hfs : findStudent db u <;>
                simp [hr, ht, hd]
  · intro hfail
    rcases hpair : createLeaveRequest u ⟨reason, ty, outD, inD, outT, inT⟩
        db now newId with ⟨res, db'⟩
    show db' = db
    cases res with
    | err c m => exact create_err_db hpair
    | ok l' =>
      obtain ⟨reason0, ty0, outD0, inD0, s, hr, ht, ho, hi, hrne, htne, hlt, -, -, -⟩ :=
        create_ok_elim hpair
      replace hr : reason = some reason0 := hr
      replace ht : ty = some ty0 := ht
      replace ho : outD = some outD0 := ho
      replace hi : inD = some inD0 := hi
      subst hr ht ho hi
      unfold createValidationFails at hfail
      simp only [beq_iff_eq, Bool.or_eq_true, decide_eq_true_eq] at hfail
      rcases hfail with (h | h) | h
      · exact absurd h hrne
      · exact absurd h htne
      · exact absurd h (not_le.mpr hlt)

theorem c5_witness :
    ((createLeaveRequest ⟨1, 1⟩ eqDatesBody exDb 0 7).1 =
        .err 400 "Please provide reason, type, out date, and in date" ∨
     (createLeaveRequest ⟨1, 1⟩ eqDatesBody exDb 0 7).1 =
        .err 400 "Out date must be before in date") ∧
    (createLeaveRequest ⟨1, 1⟩ eqDatesBody exDb 0 7).2 = exDb :=
  ⟨(c5_validation_iff ⟨1, 1⟩ eqDatesBody exDb 0 7).1.mp (by decide),
   (c5_validation_iff ⟨1, 1⟩ eqDatesBody exDb 0 7).2 (by decide)⟩

/-- C8: tenant isolation — a caller of institution A can neither read nor
mutate a leave stored under institution B: the leave never appears in
the scoped list, and each mutating operation's scoped load misses it, so
the call fails with the 404 not-found error and the store is unchanged. -/
theorem c8_tenant_isolation (u : User) (db : Db) (l : Leave)
    (hl : l ∈ db.leaves)
    (huniq : ∀ l' ∈ db.leaves, l'.id = l.id → l' = l)
    (hinst : l.institutionId ≠ u.institutionId) :
    (∀ f, l ∉ getAllLeaveRequests u f db) ∧
    (∀ st r now p, (st = "Approved" ∨ st = "Rejected") →
      findParent db u = some p →
      parentApproveOrReject u l.id st r db now =
        (.err 404 "Leave request not found", db)) ∧
    (∀ st r now, (st = "Approved" ∨ st = "Rejected") →
      updateLeaveStatus u l.id st r db now =
        (.err 404 "Leave request not found", db)) ∧
    (∀ s, findStudent db u = some s →
      cancelMyLeaveRequest u l.id db =
        (.err 404 "Leave request not found", db)) := by
  have hnone := findLeave_cross_none db u l hl huniq hinst
  refine ⟨?_, ?_, ?_, ?_⟩
  · intro f hmem
    unfold getAllLeaveRequests at hmem
    rw [List.mem_filter] at hmem
    have h2 := hmem.2
    rw [Bool.and_eq_true] at h2
    exact hinst (by simpa using h2.2)
  · intro st r now p hst hp
    simp [parentApproveOrReject, hst, hp, hnone]
  · intro st r now hst
    simp [updateLeaveStatus, hst, hnone]
  · intro s hs
    simp [cancelMyLeaveRequest, hs, hnone]

theorem c8_witness :
    exLeaveB ∉ getAllLeaveRequests ⟨1, 1⟩ none crossDb ∧
    parentApproveOrReject ⟨1, 1⟩ exLeaveB.id "Approved" none crossDb 0 =
      (.err 404 "Leave request not found", crossDb) ∧
    updateLeaveStatus ⟨1, 1⟩ exLeaveB.id "Approved" none crossDb 0 =
      (.err 404 "Leave request not found", crossDb) ∧
    cancelMyLeaveRequest ⟨1, 1⟩ exLeaveB.id crossDb =
      (.err 404 "Leave request not found", crossDb) :=
  have h := c8_tenant_isolation ⟨1, 1⟩ crossDb exLeaveB
    (by decide) (by decide) (by decide)
  ⟨h.1 none,
   h.2.1 "Approved" none 0 exParentOfU1 (Or.inl rfl) (by decide),
   h.2.2.1 "Approved" none 0 (Or.inl rfl),
   h.2.2.2 exStudent (by decide)⟩

/-- C9 counterexample: two warden decisions race on the same leave.  Both
validations read the leave while it was `ApprovedByParent`; the first
commit sets it to `Approved`; the second commit — whose
`findOneAndUpdate` filter is keyed only on id and institution, with no
expected-status condition — still succeeds and overwrites the record to
`Rejected` with the history computed from its stale read (length 3, the
first warden's entry lost).  Both racing decisions succeed and the later
write wins, so the claimed compare-and-swap is false on the code. -/
theorem c9_counterexample :
    exLeaveABP.status = "ApprovedByParent" ∧
    raceStep1.1.isSome = true ∧
    raceStep2.1.isSome = true ∧
    raceStep1.2.leaves.map Leave.status = ["Approved"] ∧
    raceStep2.2.leaves.map Leave.status = ["Rejected"] ∧
    raceStep1.2.leaves.map (fun l => l.statusHistory.length) = [3] ∧
    raceStep2.2.leaves.map (fun l => l.statusHistory.length) = [3] := by
  refine ⟨rfl, rfl, rfl, by decide, by decide, by decide, by decide⟩

/-- C9 (amended): the commit is not a compare-and-swap.  The warden
write (`findOneAndUpdate`) succeeds for any current status of the stored
record — its filter has no expected-status key — whereas the spec's
`conditionalUpdate` reports a conflict whenever the current status
differs from the expected one. -/
theorem c9_write_unconditional (db : Db) (id inst : Nat) (patch : Leave → Leave)
    (expected : String) (l : Leave)
    (hl : findLeave db id inst = some l) :
    findOneAndUpdateLeave db id inst patch =
      (some (patch l), saveLeave db (patch l)) ∧
    (l.status ≠ expected →
      conditionalUpdate db id inst expected patch = (none, db)) := by
  refine ⟨findOneAndUpdateLeave_some hl, ?_⟩
  intro hne
  unfold conditionalUpdate
  rw [hl]
  simp [hne]

theorem c9_witness :
    findOneAndUpdateLeave exDbABP 5 1
        (wardenUpdateData ⟨31, 1⟩ exLeaveABP "Approved" none 10) =
      (some (wardenUpdateData ⟨31, 1⟩ exLeaveABP "Approved" none 10 exLeaveABP),
       saveLeave exDbABP
         (wardenUpdateData ⟨31, 1⟩ exLeaveABP "Approved" none 10 exLeaveABP)) ∧
    conditionalUpdate exDbABP 5 1 "PendingParent"
      (wardenUpdateData ⟨31, 1⟩ exLeaveABP "Approved" none 10) = (none, exDbABP) :=
  have h := c9_write_unconditional exDbABP 5 1
    (wardenUpdateData ⟨31, 1⟩ exLeaveABP "Approved" none 10) "PendingParent"
    exLeaveABP (by decide)
  ⟨h.1, h.2 (by decide)⟩

end HostelLeave
